import Mathlib

/-!
# Verification of the Amplified real-time transcript coaching core

Shallow embedding of the transcript coaching and suggestion-trigger engine:

* `AudioProcessor` and `onMessage` embed `backend/app/services/audio_processor.py`
  (the Deepgram `on_message` fragment handler, `start_capture`, `stop_capture`).
* `SessionState`, `transcriptCallback`, `fireTask`, `advance` embed the per-session
  debounce scheduler in `backend/main.py` (`transcript_callback` / `delayed_trigger`).

Modelling conventions:
* wall-clock timestamps are rationals (seconds); `datetime` subtraction becomes
  rational subtraction (Python float rounding is immaterial at the values used here);
* Python `int(x)` on a nonnegative value is `⌊x⌋`;
* fallible Python operations (list indexing, access to an attribute that may be unset)
  are embedded in `Except String`; a `.error` result is a raised exception propagating
  out of the embedded function;
* outbound websocket sends that merely echo data to the UI are modelled as message
  logs; the sends themselves are treated as total.
-/

/-! ## Data model: provider fragments (Deepgram result shape) -/

/-- One word of a Deepgram alternative: surface text plus diarization speaker index. -/
structure DGWord where
  word : String
  speaker : Nat
deriving Repr, DecidableEq

/-- One alternative of a Deepgram channel: transcript text plus the word list. -/
structure DGAlternative where
  transcript : String
  words : List DGWord
deriving Repr, DecidableEq

/-- A Deepgram transcript result: `result.channel.alternatives`, `result.is_final`,
`result.channel_index` (the `hasattr` guard in the source is modelled by the field
always being present, defaulting to 0 exactly as the source does). -/
structure DGResult where
  alternatives : List DGAlternative
  is_final : Bool
  channel_index : Nat
deriving Repr, DecidableEq

/-! ## Data model: the `AudioProcessor` object state -/

/-- State of `AudioProcessor` (audio_processor.py).  Booleans stand for the
is-not-`None` status of the corresponding Python attributes; `input_channels` is
`none` until `start_capture` probes the device (it is not set in `__init__`). -/
structure AudioProcessor where
  deepgramApiKey : Option String
  is_listening : Bool
  hasCallback : Bool
  dgConnection : Bool
  microphone : Bool
  word_history : List (ℚ × Nat)
  filler_count : Nat
  fillers_detected : List String
  user_name : Option String
  input_channels : Option Nat
deriving Repr, DecidableEq

/-- `AudioProcessor.__init__`: coaching state empty, nothing connected,
`input_channels` unset. -/
def initProcessor (key : Option String) : AudioProcessor :=
  { deepgramApiKey := key
    is_listening := false
    hasCallback := false
    dgConnection := false
    microphone := false
    word_history := []
    filler_count := 0
    fillers_detected := []
    user_name := none
    input_channels := none }

/-- `set_callback`. -/
def setCallback (s : AudioProcessor) : AudioProcessor :=
  { s with hasCallback := true }

/-- `set_user_name`. -/
def setUserName (n : Option String) (s : AudioProcessor) : AudioProcessor :=
  { s with user_name := n }

/-- Python truthiness of an optional string: `None` and `""` are falsy. -/
def pyTruthy : Option String → Bool
  | none => false
  | some s => s ≠ ""

/-! ## The fragment handler `on_message`: helper steps, in source order -/

/-- Python `s.lower()` (ASCII case folding, as the sources rely on). -/
def pyLower (s : String) : String :=
  ⟨s.data.map Char.toLower⟩

/-- Python `s.strip()`: remove whitespace from both ends. -/
def pyTrim (s : String) : String :=
  ⟨((s.data.dropWhile Char.isWhitespace).reverse.dropWhile Char.isWhitespace).reverse⟩

/-- Python `s.startswith(pre)`. -/
def pyStartsWith (s pre : String) : Bool :=
  pre.data.isPrefixOf s.data

/-- Python `c in s` for a single character. -/
def pyContainsChar (s : String) (c : Char) : Bool :=
  s.data.contains c

/-- Python `sentence.split()`: split on whitespace runs, no empty pieces
(accumulator holds the current word reversed). -/
def pySplitWsAux : List Char → List Char → List String
  | [], acc => if acc = [] then [] else [⟨acc.reverse⟩]
  | c :: cs, acc =>
    if c.isWhitespace then
      if acc = [] then pySplitWsAux cs []
      else ⟨acc.reverse⟩ :: pySplitWsAux cs []
    else pySplitWsAux cs (c :: acc)

/-- Python `sentence.split()`. -/
def splitWords (s : String) : List String :=
  pySplitWsAux s.data []

/-- Word count of a fragment: `len(words) if words else len(sentence.split())`. -/
def wordCountOf (alt : DGAlternative) : Nat :=
  if alt.words ≠ [] then alt.words.length else (splitWords alt.transcript).length

/-- The `while` pruning loop: pop history entries older than 10 seconds. -/
def pruneHistory (t : ℚ) (h : List (ℚ × Nat)) : List (ℚ × Nat) :=
  h.dropWhile (fun p => t - p.1 > 10)

/-- The WPM block of `on_message` (lines 107–133): append the entry, prune the
10-second window, compute `int(total / window * 60)` with the `word_count * 6`
fallback when that truncates to 0.  Returns the updated state and the reported wpm;
when `word_count = 0` nothing is appended and the wpm is 0. -/
def wpmStep (s : AudioProcessor) (t : ℚ) (wc : Nat) : AudioProcessor × ℤ :=
  if wc > 0 then
    let hist := pruneHistory t (s.word_history ++ [(t, wc)])
    let total : Nat := (hist.map (·.2)).sum
    let window : ℚ :=
      match hist.head? with
      | some p => if t - p.1 > 1 then t - p.1 else 10
      | none => 10
    let naive : ℤ := ⌊(total : ℚ) / window * 60⌋
    let wpm : ℤ := if naive = 0 ∧ wc > 0 then (wc * 6 : ℤ) else naive
    ({ s with word_history := hist }, wpm)
  else (s, 0)

/-- Python `w.strip(".,?!")`: strip those characters from both ends. -/
def stripPunct (s : String) : String :=
  let punct : Char → Bool := fun c => c = '.' ∨ c = ',' ∨ c = '?' ∨ c = '!'
  ⟨((s.data.dropWhile punct).reverse.dropWhile punct).reverse⟩

/-- The fixed filler vocabulary matched against normalized word tokens. -/
def fillerVocab : List String := ["um", "uh", "hmm", "like", "you know", "so", "actually"]

/-- Non-overlapping substring occurrence count, Python `str.count`.  Fuel-driven
left-to-right scan; fuel `s.length` suffices since each step consumes a character. -/
def countOccsAux (pat : List Char) : List Char → Nat → Nat
  | _, 0 => 0
  | [], _ + 1 => 0
  | c :: cs, fuel + 1 =>
    if pat ≠ [] ∧ pat.isPrefixOf (c :: cs) then
      1 + countOccsAux pat ((c :: cs).drop pat.length) fuel
    else
      countOccsAux pat cs fuel

/-- Python `s.count(pat)` for nonempty `pat`. -/
def countOccs (pat s : String) : Nat :=
  countOccsAux pat.data s.data s.data.length

/-- The filler detection block of `on_message` (lines 140–158): word-level matching
when a word list is present, otherwise substring counting on the lowered sentence. -/
def fillerStep (s : AudioProcessor) (sentence : String) (words : List DGWord) :
    AudioProcessor :=
  if words ≠ [] then
    words.foldl
      (fun acc w =>
        let wt := stripPunct (pyLower w.word)
        if wt ∈ fillerVocab then
          { acc with
            filler_count := acc.filler_count + 1
            fillers_detected := acc.fillers_detected ++ [wt] }
        else acc)
      s
  else if sentence ≠ "" then
    let lower := pyLower sentence
    ["um", "uh", "hmm", "like", "you know"].foldl
      (fun acc f =>
        let c := countOccs f lower
        if c > 0 then
          { acc with
            filler_count := acc.filler_count + c
            fillers_detected := acc.fillers_detected ++ List.replicate c f }
        else acc)
      s
  else s

/-- The speaker identification block (lines 162–181).  Accessing
`self.input_channels` when the attribute was never set raises `AttributeError`;
Python's short-circuit `and` only reaches that access when `channel_index == 0`. -/
def resolveSpeaker (channel_index sid0 : Nat) (input_channels : Option Nat)
    (user_name : Option String) : Except String (String × Nat) :=
  let fallback : String × Nat :=
    if pyTruthy user_name ∧ sid0 = 0 then
      (user_name.getD "", sid0)
    else
      ("Speaker " ++ toString sid0, sid0)
  if channel_index = 1 then
    .ok ("Interviewer (System)", 0)
  else if channel_index = 0 then
    match input_channels with
    | none => .error "AttributeError: input_channels"
    | some ic =>
      if ic > 1 then
        .ok (if pyTruthy user_name then user_name.getD "" else "Candidate (You)", 1)
      else
        .ok fallback
  else
    .ok fallback

/-- `speaker_id = 0; if words and len(words) > 0: speaker_id = words[0].speaker`. -/
def firstSpeaker (words : List DGWord) : Nat :=
  if words ≠ [] then (words.headD ⟨"", 0⟩).speaker else 0

/-- The interrogative starter set of the question heuristic. -/
def questionStarters : List String :=
  ["who", "what", "where", "when", "why", "how", "can you", "could you", "tell me"]

/-- The question detection block (lines 184–192): only final fragments are tested;
`?` anywhere, else a starter of the lowered, stripped sentence. -/
def questionStep (is_final : Bool) (sentence : String) : Bool :=
  if is_final then
    if pyContainsChar sentence '?' then true
    else questionStarters.any (fun st => pyStartsWith (pyTrim (pyLower sentence)) st)
  else false

/-- Python `xs[-5:]` / `xs[-n:]`: the last `n` elements. -/
def lastN (n : Nat) (l : List String) : List String :=
  l.drop (l.length - n)

/-- The coaching payload of the annotated event. -/
structure Coaching where
  wpm : ℤ
  filler_count : Nat
  fillers : List String
deriving Repr, DecidableEq

/-- The annotated event passed to the transcript callback. -/
structure AnnotatedOut where
  speaker : String
  speaker_id : Nat
  text : String
  is_final : Bool
  is_question : Bool
  timestamp : ℚ
  coaching : Coaching
deriving Repr, DecidableEq

/-- The `on_message` fragment handler (audio_processor.py lines 86–207), straight-line
in `Except String`: the source contains no exception handler, so an error in any
sub-step is the handler's result.  Returns the event delivered to the transcript
callback (`none` when the empty-transcript guard returns early or no callback is
set) together with the updated processor state. -/
def onMessage (res : DGResult) (t : ℚ) (s : AudioProcessor) :
    Except String (Option AnnotatedOut × AudioProcessor) :=
  match res.alternatives.head? with
  | none => .error "IndexError: alternatives"
  | some alt =>
    let sentence := alt.transcript
    if sentence.length = 0 then .ok (none, s)
    else
      let words := alt.words
      let word_count := wordCountOf alt
      let s1 := (wpmStep s t word_count).1
      let wpm := (wpmStep s t word_count).2
      let s2 := fillerStep s1 sentence words
      match resolveSpeaker res.channel_index (firstSpeaker words) s.input_channels
          s.user_name with
      | .error e => .error e
      | .ok (speaker, speaker_id) =>
        let is_question := questionStep res.is_final sentence
        let ev : AnnotatedOut :=
          { speaker := speaker
            speaker_id := speaker_id
            text := sentence
            is_final := res.is_final
            is_question := is_question
            timestamp := t
            coaching :=
              { wpm := wpm
                filler_count := s2.filler_count
                fillers := lastN 5 s2.fillers_detected } }
        .ok (if s.hasCallback then some ev else none, s2)

/-! ## `start_capture` / `stop_capture` -/

/-- Environment of one `start_capture` call: the device probe outcome
(`max_input_channels`, `none` when `sd.query_devices` raises) and whether
`dg_connection.start(options)` returns `True`. -/
structure CaptureEnv where
  probe : Option Nat
  connectOk : Bool
deriving Repr, DecidableEq

/-- `start_capture` (lines 58–279): early return when already listening or the
credential is falsy (`if not self.deepgram_api_key:` — Python rejects both
`None` and the empty string); otherwise set `is_listening`, reset the coaching
state, create the connection object, probe channels (degrading to 1 on probe
failure), and either start the microphone or back out `is_listening` when the
provider handshake fails.  The blanket `except` around the body is not
modelled; all claims checked here concern the guard and reset paths that
precede it. -/
def startCapture (env : CaptureEnv) (s : AudioProcessor) : AudioProcessor :=
  if s.is_listening then s
  else if pyTruthy s.deepgramApiKey = false then s
  else
    let s := { s with
      is_listening := true
      word_history := []
      filler_count := 0
      fillers_detected := [] }
    let s := { s with dgConnection := true }
    let ic : Nat :=
      match env.probe with
      | some mc => if mc ≥ 2 then 2 else 1
      | none => 1
    let s := { s with input_channels := some ic }
    if env.connectOk then { s with microphone := true }
    else { s with is_listening := false }

/-- `stop_capture` (lines 281–293). -/
def stopCapture (s : AudioProcessor) : AudioProcessor :=
  { s with is_listening := false, microphone := false, dgConnection := false }

/-! ## The per-session debounce scheduler (main.py `transcript_callback`) -/

/-- An annotated event as consumed by `transcript_callback`: the fields of the
callback's `data` dict that the scheduler logic reads. -/
structure TEvent where
  speaker : String
  text : String
  isFinal : Bool
  isQuestion : Bool
  time : ℚ
deriving Repr, DecidableEq

/-- An `asyncio` task created by `asyncio.create_task(delayed_trigger())`:
its wake-up deadline (creation time + 3.0) and its cancelled/done status.
A cancelled task never runs its post-sleep body; a fired task is `done`. -/
structure TriggerTask where
  deadline : ℚ
  cancelled : Bool
  done : Bool
deriving Repr, DecidableEq

/-- A live (pending) task: neither cancelled nor already fired. -/
def TriggerTask.isLive (t : TriggerTask) : Bool := !t.cancelled && !t.done

/-- Messages the trigger path sends to the frontend: the suggestion payload on
success, the generic error event that `generate_suggestion` sends when the
suggestion collaborator raises. -/
inductive UiMsg where
  | suggestion (question : String)
  | errorMsg
deriving Repr, DecidableEq

/-- Per-session scheduler state (the `session` dict entries used by
`transcript_callback`, plus observation logs).  `tasks` records every task ever
created, in creation order; `triggerTask` is the index held by
`session["trigger_task"]`.  `llmFails` is the (fixed) outcome of the suggestion
collaborator; `suggestionCalls` logs the `detected_question` of each
`generate_suggestion` invocation; `sent` logs suggestion/error messages. -/
structure SessionState where
  questionBuffer : List String
  hasSeenQuestion : Bool
  tasks : List TriggerTask
  triggerTask : Option Nat
  mockModeActive : Bool
  llmFails : Bool
  suggestionCalls : List String
  sent : List UiMsg
  transcriptText : String
deriving Repr, DecidableEq

/-- Session state after the lazy initialisation block of `transcript_callback`
(`question_buffer = []`, `trigger_task = None`, `has_seen_question = False`). -/
def initSession (mock llmFails : Bool) : SessionState :=
  { questionBuffer := []
    hasSeenQuestion := false
    tasks := []
    triggerTask := none
    mockModeActive := mock
    llmFails := llmFails
    suggestionCalls := []
    sent := []
    transcriptText := "" }

/-- Mark task `i` as done (it ran to completion). -/
def markDone (tasks : List TriggerTask) (i : Nat) : List TriggerTask :=
  match tasks[i]? with
  | some t => tasks.set i { t with done := true }
  | none => tasks

/-- `generate_suggestion` (main.py lines 541–586): the whole body is wrapped in
`try/except Exception`; a collaborator failure results in a generic error event
instead of a suggestion, and the function returns normally either way (the
error-path send itself is modelled as total). -/
def generateSuggestion (llmFails : Bool) (question : String) : List UiMsg :=
  if llmFails then [UiMsg.errorMsg] else [UiMsg.suggestion question]

/-- The body of `delayed_trigger` after its 3-second sleep completes without
cancellation (main.py lines 310–332): join the buffer, call
`generate_suggestion` unless mock mode is active, then clear the buffer and
reset `has_seen_question`; finally the task is done.  The fire is modelled as
atomic (no event interleaves with it), which is faithful under the silence
hypotheses of the claims below. -/
def fireTask (s : SessionState) (i : Nat) : SessionState :=
  let full := String.intercalate " " s.questionBuffer
  let s1 :=
    if s.mockModeActive then s
    else
      { s with
        suggestionCalls := s.suggestionCalls ++ [full]
        sent := s.sent ++ generateSuggestion s.llmFails full }
  { s1 with
    questionBuffer := []
    hasSeenQuestion := false
    tasks := markDone s1.tasks i }

/-- Is task `i` due and live at time `now`: its 3-second sleep has elapsed and it
was neither cancelled nor already run. -/
def dueLive (now : ℚ) (s : SessionState) (i : Nat) : Bool :=
  match s.tasks[i]? with
  | some t => decide (t.deadline ≤ now) && t.isLive
  | none => false

/-- One step of letting the event loop run the due tasks. -/
def advStep (now : ℚ) (s : SessionState) (i : Nat) : SessionState :=
  if dueLive now s i then fireTask s i else s

/-- Let wall-clock time reach `now`: every scheduled task whose sleep has elapsed
and that was not cancelled runs its `delayed_trigger` body. -/
def advance (now : ℚ) (s : SessionState) : SessionState :=
  (List.range s.tasks.length).foldl (advStep now) s

/-- The debounce cancellation step of `transcript_callback` (lines 305–307):
`if session["trigger_task"] and not session["trigger_task"].done(): cancel()`. -/
def cancelPrevTasks (triggerTask : Option Nat) (tasks : List TriggerTask) :
    List TriggerTask :=
  match triggerTask with
  | some i =>
    match tasks[i]? with
    | some t => if t.done = false then tasks.set i { t with cancelled := true } else tasks
    | none => tasks
  | none => tasks

/-- Append to the question buffer, evicting the oldest entry past 10
(`append` then `if len > 10: pop(0)`). -/
def pushCapped (buf : List String) (x : String) : List String :=
  let b := buf ++ [x]
  if b.length > 10 then b.tail else b

/-- The bookkeeping prefix of `transcript_callback` (main.py lines 271–300):
log final text to the session transcript, buffer final text (cap 10), latch
`has_seen_question`.  The `transcript_update` echo to the websocket and the
session-existence check are not modelled (single-session model, the echo has no
state effect). -/
def bufferStep (e : TEvent) (s : SessionState) : SessionState :=
  let s :=
    if e.isFinal then
      { s with transcriptText := s.transcriptText ++ e.speaker ++ ": " ++ e.text ++ "\n" }
    else s
  let s :=
    if e.isFinal then { s with questionBuffer := pushCapped s.questionBuffer e.text }
    else s
  if e.isQuestion then { s with hasSeenQuestion := true } else s

/-- The debounce suffix of `transcript_callback` (lines 303–336): whenever the
question latch is set, cancel the pending delayed task and schedule a fresh
3.0-second one (`asyncio.create_task(delayed_trigger())`). -/
def scheduleStep (t : ℚ) (s : SessionState) : SessionState :=
  if s.hasSeenQuestion then
    let s2 := { s with tasks := cancelPrevTasks s.triggerTask s.tasks }
    { s2 with
      tasks := s2.tasks ++ [⟨t + 3, false, false⟩]
      triggerTask := some s2.tasks.length }
  else s

/-- The body of `transcript_callback` (main.py lines 254–336) for one event. -/
def transcriptCallback (e : TEvent) (s : SessionState) : SessionState :=
  scheduleStep e.time (bufferStep e s)

/-- Processing one arriving event: the event loop first runs any due delayed
task (its sleep ended before the event arrived), then the callback runs. -/
def stepEvent (s : SessionState) (e : TEvent) : SessionState :=
  transcriptCallback e (advance e.time s)

/-- Run the scheduler over a trace of events (in arrival order). -/
def run (trace : List TEvent) (s : SessionState) : SessionState :=
  trace.foldl stepEvent s

/-- Events strictly after `τ`, each arriving within 3 seconds of its
predecessor (so every gap is inside the debounce silence window). -/
def wellSpacedB : ℚ → List TEvent → Bool
  | _, [] => true
  | τ, e :: rest => decide (τ < e.time) && decide (e.time < τ + 3) && wellSpacedB e.time rest

/-- Arrival time of the last event, defaulting to `τ`. -/
def lastTimeD (τ : ℚ) : List TEvent → ℚ
  | [] => τ
  | e :: rest => lastTimeD e.time rest

/-- Texts of the final events of a trace. -/
def finalTexts (trace : List TEvent) : List String :=
  (trace.filter (·.isFinal)).map (·.text)

/-- The last (at most) 10 elements: contents of a cap-10 buffer that evicted its
oldest entries. -/
def capLast (l : List String) : List String :=
  l.drop (l.length - 10)

/-- Number of delayed-trigger task bodies that have run (fired). -/
def fireCount (s : SessionState) : Nat :=
  s.tasks.countP (·.done)

/-! ## Claim-side (specification) definitions -/

/-- WPM formula as the specification words it, parameterized by the final
integer conversion: retain the history entries (current fragment appended) that
are no older than 10 seconds, sum their word counts, take the elapsed time from
the oldest retained entry when it exceeds 1 second (else a fixed 10 seconds),
convert `total / window * 60`, and fall back to `wordCount * 6` exactly when the
naive result is 0 with a positive word count. -/
def wpmClaimWith (conv : ℚ → ℤ) (history : List (ℚ × Nat)) (t : ℚ) (wc : Nat) : ℤ :=
  let entries := (history ++ [(t, wc)]).filter (fun p => t - p.1 ≤ 10)
  let total : Nat := (entries.map (·.2)).sum
  let window : ℚ :=
    match entries.head? with
    | some p => if t - p.1 > 1 then t - p.1 else 10
    | none => 10
  let naive : ℤ := conv ((total : ℚ) / window * 60)
  if naive = 0 ∧ wc > 0 then (wc * 6 : ℤ) else naive

/-- The claimed formula: `wpm = round(totalWords / windowSeconds * 60)`. -/
def wpmClaimRound (history : List (ℚ × Nat)) (t : ℚ) (wc : Nat) : ℤ :=
  wpmClaimWith round history t wc

/-- The amended formula: Python `int()` truncates, so the conversion is `⌊·⌋`
(floor equals truncation on these nonnegative values). -/
def wpmClaimFloor (history : List (ℚ × Nat)) (t : ℚ) (wc : Nat) : ℤ :=
  wpmClaimWith Int.floor history t wc

/-! ## Helper lemmas -/

/-- On a history sorted by timestamp, popping old entries from the front is the
same as retaining exactly the entries no older than 10 seconds. -/
theorem dropWhile_old_eq_filter_young (t : ℚ) :
    ∀ l : List (ℚ × Nat), l.Pairwise (fun a b => a.1 ≤ b.1) →
      l.dropWhile (fun p => t - p.1 > 10) = l.filter (fun p => t - p.1 ≤ 10) := by
  intro l hl
  induction l with
  | nil => rfl
  | cons a l ih =>
    rcases List.pairwise_cons.mp hl with ⟨ha, hl'⟩
    by_cases h : t - a.1 > 10
    · have h2 : ¬ (t - a.1 ≤ 10) := not_le.mpr h
      simp only [List.dropWhile_cons, List.filter_cons]
      simpa [h, h2] using ih hl'
    · have h2 : t - a.1 ≤ 10 := not_lt.mp h
      simp only [List.dropWhile_cons, List.filter_cons]
      simp only [h, h2, decide_eq_true_eq, if_true, if_false]
      simp [h, h2]
      symm
      rw [List.filter_eq_self]
      intro p hp
      have := ha p hp
      simp only [decide_eq_true_eq]
      linarith

/-- `resolveSpeaker` raises only for a channel-0 fragment with `input_channels`
unset. -/
theorem resolveSpeaker_error (ci sid0 : Nat) (ic : Option Nat) (un : Option String)
    (e : String) (he : resolveSpeaker ci sid0 ic un = .error e) : ci = 0 ∧ ic = none := by
  unfold resolveSpeaker at he
  by_cases h1 : ci = 1
  · simp [h1] at he
  · by_cases h0 : ci = 0
    · cases ic with
      | none => exact ⟨h0, rfl⟩
      | some n =>
        by_cases hn : n > 1
        · simp [h1, h0, hn] at he
        · simp [h1, h0, hn] at he
    · simp [h1, h0] at he

/-- `resolveSpeaker` succeeds whenever `input_channels` is set or the fragment is
not on channel 0. -/
theorem resolveSpeaker_ok (ci sid0 : Nat) (ic : Option Nat) (un : Option String)
    (h : ci = 0 → ic.isSome) : ∃ p, resolveSpeaker ci sid0 ic un = .ok p := by
  cases hres : resolveSpeaker ci sid0 ic un with
  | ok p => exact ⟨p, rfl⟩
  | error e =>
    rcases resolveSpeaker_error ci sid0 ic un e hres with ⟨h0, hnone⟩
    have := h h0
    rw [hnone] at this
    simp at this

/-! ## C7: missing credential aborts capture start -/

/-- C7.  If the transcription API credential is absent, `start_capture` returns
before any state mutation: capture never begins, no provider connection or input
stream is opened, and `is_listening` stays `false`. -/
theorem missing_credential_start_noop (env : CaptureEnv) (s : AudioProcessor)
    (hkey : s.deepgramApiKey = none) (hidle : s.is_listening = false) :
    startCapture env s = s ∧
      (startCapture env s).is_listening = false ∧
      (startCapture env s).dgConnection = s.dgConnection ∧
      (startCapture env s).microphone = s.microphone := by
  have heq : startCapture env s = s := by
    unfold startCapture
    simp [hidle, hkey, pyTruthy]
  exact ⟨heq, by rw [heq, hidle], by rw [heq], by rw [heq]⟩

/-- Witness for C7 at the freshly constructed processor with no key. -/
theorem missing_credential_start_noop_witness :
    startCapture ⟨some 2, true⟩ (initProcessor none) = initProcessor none ∧
      (startCapture ⟨some 2, true⟩ (initProcessor none)).is_listening = false ∧
      (startCapture ⟨some 2, true⟩ (initProcessor none)).dgConnection =
        (initProcessor none).dgConnection ∧
      (startCapture ⟨some 2, true⟩ (initProcessor none)).microphone =
        (initProcessor none).microphone :=
  missing_credential_start_noop ⟨some 2, true⟩ (initProcessor none) rfl rfl

/-! ## C8: stop/restart resets the coaching state -/

/-- C8.  Stopping capture and then restarting it resets the coaching state:
after the restarted `start_capture` passes its guards (not listening after stop,
credential present and non-empty — Python truthiness) the word history, filler
counter and detected-fillers list are reset — on every probe/handshake outcome,
since the reset precedes both. -/
theorem stop_start_resets_coaching (env : CaptureEnv) (s : AudioProcessor)
    (k : String) (hkey : s.deepgramApiKey = some k) (hne : k ≠ "") :
    (startCapture env (stopCapture s)).word_history = [] ∧
      (startCapture env (stopCapture s)).filler_count = 0 ∧
      (startCapture env (stopCapture s)).fillers_detected = [] := by
  unfold startCapture stopCapture
  by_cases hc : env.connectOk = true <;> simp [hkey, hc, pyTruthy, hne]

/-- Witness for C8 on a processor carrying non-trivial coaching state. -/
theorem stop_start_resets_coaching_witness :
    (startCapture ⟨none, false⟩
        (stopCapture { initProcessor (some "key") with
          word_history := [(0, 4)], filler_count := 2,
          fillers_detected := ["um", "uh"] })).word_history = [] ∧
      (startCapture ⟨none, false⟩
        (stopCapture { initProcessor (some "key") with
          word_history := [(0, 4)], filler_count := 2,
          fillers_detected := ["um", "uh"] })).filler_count = 0 ∧
      (startCapture ⟨none, false⟩
        (stopCapture { initProcessor (some "key") with
          word_history := [(0, 4)], filler_count := 2,
          fillers_detected := ["um", "uh"] })).fillers_detected = [] :=
  stop_start_resets_coaching ⟨none, false⟩ _ "key" rfl (by decide)

/-! ## C10: the empty-transcript guard -/

/-- C10.  A provider fragment whose transcript text is empty is dropped before
any processing: no event reaches the transcript callback and the processor
state (word history, filler counter, detected fillers included) is unchanged. -/
theorem empty_transcript_early_return (res : DGResult) (t : ℚ) (s : AudioProcessor)
    (alt : DGAlternative) (halt : res.alternatives.head? = some alt)
    (hempty : alt.transcript = "") :
    onMessage res t s = .ok (none, s) := by
  unfold onMessage
  rw [halt]
  simp [hempty]

/-- Witness for C10: an empty final fragment against a listening processor. -/
theorem empty_transcript_early_return_witness :
    onMessage ⟨[⟨"", [⟨"", 0⟩]⟩], true, 0⟩ 5
        (setCallback (initProcessor (some "key"))) =
      .ok (none, setCallback (initProcessor (some "key"))) :=
  empty_transcript_early_return _ 5 _ ⟨"", [⟨"", 0⟩]⟩ rfl rfl

/-- A string has length 0 exactly when it is empty. -/
theorem string_length_eq_zero_iff (s : String) : s.length = 0 ↔ s = "" := by
  constructor
  · intro h
    cases s with
    | mk data =>
      have hd : data.length = 0 := h
      have hnil : data = [] := List.length_eq_zero.mp hd
      rw [hnil]
  · intro h
    rw [h]
    rfl

/-! ## Shape lemmas for the fragment handler -/

/-- The processor state produced by one non-empty fragment: WPM history update
followed by filler detection. -/
def metricsState (alt : DGAlternative) (t : ℚ) (s : AudioProcessor) : AudioProcessor :=
  fillerStep (wpmStep s t (wordCountOf alt)).1 alt.transcript alt.words

/-- The wpm value reported for one non-empty fragment. -/
def reportedWpm (alt : DGAlternative) (t : ℚ) (s : AudioProcessor) : ℤ :=
  (wpmStep s t (wordCountOf alt)).2

/-- Successful-path shape of `onMessage`: with a non-empty transcript and a
successful speaker resolution, the handler returns the annotated event (when a
callback is registered) and the metrics-updated state. -/
theorem onMessage_ok_shape (res : DGResult) (t : ℚ) (s : AudioProcessor)
    (alt : DGAlternative) (p : String × Nat)
    (halt : res.alternatives.head? = some alt) (hne : alt.transcript ≠ "")
    (hres : resolveSpeaker res.channel_index (firstSpeaker alt.words)
      s.input_channels s.user_name = .ok p) :
    onMessage res t s = .ok
      (if s.hasCallback then
        some
          { speaker := p.1
            speaker_id := p.2
            text := alt.transcript
            is_final := res.is_final
            is_question := questionStep res.is_final alt.transcript
            timestamp := t
            coaching :=
              { wpm := reportedWpm alt t s
                filler_count := (metricsState alt t s).filler_count
                fillers := lastN 5 (metricsState alt t s).fillers_detected } }
       else none,
       metricsState alt t s) := by
  obtain ⟨sp, sid⟩ := p
  have hlen : ¬ (alt.transcript.length = 0) := by
    simpa [string_length_eq_zero_iff] using hne
  unfold onMessage
  rw [halt]
  simp only [hlen, if_false, hres, metricsState, reportedWpm]

/-- Error-path shape of `onMessage`: with a non-empty transcript and a raising
speaker resolution, the handler re-raises — there is no handler inside it. -/
theorem onMessage_error_shape (res : DGResult) (t : ℚ) (s : AudioProcessor)
    (alt : DGAlternative) (e : String)
    (halt : res.alternatives.head? = some alt) (hne : alt.transcript ≠ "")
    (hres : resolveSpeaker res.channel_index (firstSpeaker alt.words)
      s.input_channels s.user_name = .error e) :
    onMessage res t s = .error e := by
  have hlen : ¬ (alt.transcript.length = 0) := by
    simpa [string_length_eq_zero_iff] using hne
  unfold onMessage
  rw [halt]
  simp only [hlen, if_false, hres]

/-! ## C6: the question-detection rule -/

/-- The `if`-chain of the question heuristic as a boolean formula. -/
theorem questionStep_eq (f : Bool) (s : String) :
    questionStep f s =
      (f && (pyContainsChar s '?' ||
        questionStarters.any (fun st => pyStartsWith (pyTrim (pyLower s)) st))) := by
  cases f
  · simp [questionStep]
  · by_cases h : pyContainsChar s '?' = true <;> simp [questionStep, h]

/-- C6.  For a final fragment the annotated event's `is_question` flag is true
exactly when the text contains a literal `?` or its trimmed, lowercased form
starts with one of the fixed interrogative starters; for an interim (non-final)
fragment the flag is false (the `false &&` case). -/
theorem question_flag_iff_heuristic (res : DGResult) (t : ℚ) (s : AudioProcessor)
    (alt : DGAlternative) (halt : res.alternatives.head? = some alt)
    (hne : alt.transcript ≠ "")
    (hch : res.channel_index = 0 → s.input_channels.isSome)
    (hcb : s.hasCallback = true) :
    ∃ ev s2, onMessage res t s = .ok (some ev, s2) ∧
      ev.is_question =
        (res.is_final && (pyContainsChar alt.transcript '?' ||
          questionStarters.any
            (fun st => pyStartsWith (pyTrim (pyLower alt.transcript)) st))) := by
  obtain ⟨p, hres⟩ :=
    resolveSpeaker_ok res.channel_index (firstSpeaker alt.words) s.input_channels
      s.user_name hch
  have hshape := onMessage_ok_shape res t s alt p halt hne hres
  rw [hcb] at hshape
  simp only [if_true] at hshape
  exact ⟨_, _, hshape, questionStep_eq res.is_final alt.transcript⟩

/-- Witness for C6: a final channel-1 fragment starting with an interrogative
starter and containing no question mark is flagged a question. -/
theorem question_flag_iff_heuristic_witness :
    (onMessage ⟨[⟨"Tell me about your experience", []⟩], true, 1⟩ 2
        (setCallback (initProcessor (some "key")))).map
      (fun r => r.1.map (·.is_question)) = .ok (some true) := by
  obtain ⟨ev, s2, hok, hq⟩ :=
    question_flag_iff_heuristic ⟨[⟨"Tell me about your experience", []⟩], true, 1⟩ 2
      (setCallback (initProcessor (some "key"))) ⟨"Tell me about your experience", []⟩
      rfl (by decide) (by intro h; cases h) rfl
  rw [hok]
  simp only [Except.map, Option.map]
  rw [hq]
  exact congrArg (fun b => Except.ok (some b)) (by decide)

/-! ## C9: exceptions in the annotation logic escape the fragment handler -/

/-- Counterexample to C9 as stated.  `on_message` contains no `try/except`: at
this concrete input — a processor fresh from `__init__` (where `input_channels`
is never assigned) with a callback registered, receiving a non-empty channel-0
final fragment — the speaker-resolution step raises and the exception is the
handler's own outcome, i.e. it propagates out of the callback instead of being
caught and logged inside it. -/
theorem annotation_error_escapes_handler_cx :
    onMessage ⟨[⟨"Tell me about yourself", []⟩], true, 0⟩ 0
        (setCallback (initProcessor (some "key"))) =
      .error "AttributeError: input_channels" := by
  rfl

/-- Amended C9.  The fragment handler has no exception handler of its own: an
exception raised inside the annotation logic (here, speaker resolution touching
the unset `input_channels` attribute) propagates out of `on_message` to the SDK
caller.  (The catch-and-log that does exist lives in the downstream
`transcript_callback` of main.py, not in the fragment handler.) -/
theorem annotation_error_propagates (res : DGResult) (t : ℚ) (s : AudioProcessor)
    (alt : DGAlternative) (halt : res.alternatives.head? = some alt)
    (hne : alt.transcript ≠ "") (hch : res.channel_index = 0)
    (hnone : s.input_channels = none) :
    onMessage res t s = .error "AttributeError: input_channels" := by
  apply onMessage_error_shape res t s alt _ halt hne
  unfold resolveSpeaker
  simp [hch, hnone]

/-- Witness for the amended C9 at a concrete interim fragment. -/
theorem annotation_error_propagates_witness :
    onMessage ⟨[⟨"What is this", []⟩], false, 0⟩ 1 (initProcessor none) =
      .error "AttributeError: input_channels" :=
  annotation_error_propagates _ 1 _ ⟨"What is this", []⟩ rfl (by decide) rfl rfl

/-! ## C3: the reported wpm formula -/

/-- A processor as configured by a successful `start_capture` on a single-channel
device, with a registered callback. -/
def procReady : AudioProcessor :=
  { initProcessor (some "key") with
    is_listening := true, hasCallback := true, input_channels := some 1 }

def altA : DGAlternative := ⟨"one two three", []⟩

def resA : DGResult := ⟨[altA], true, 1⟩

def altB : DGAlternative := ⟨"four", []⟩

def resB : DGResult := ⟨[altB], true, 1⟩

/-- `procReady` after the fragment `resA` at time 0 (three words, no fillers). -/
def procAfterA : AudioProcessor := { procReady with word_history := [(0, 3)] }

attribute [local semireducible] Rat.add Rat.sub Rat.mul Rat.inv in
/-- Sanity: `procAfterA` is the state the handler actually reaches. -/
theorem procAfterA_reachable : (onMessage resA 0 procReady).map (·.2) = .ok procAfterA := by
  rfl

attribute [local semireducible] Rat.add Rat.sub Rat.mul Rat.inv in
/-- Counterexample to C3 as stated.  Python `int()` truncates; it does not round.
After a 3-word fragment at t = 0, a 1-word fragment at t = 9 yields the naive
rate 4/9·60 = 26.66…: the code reports 26, while the claimed
`round(totalWords / windowSeconds * 60)` is 27. -/
theorem wpm_round_vs_truncation_cx :
    (onMessage resB 9 procAfterA).map (fun r => r.1.map (·.coaching.wpm)) =
      .ok (some 26) ∧
    wpmClaimRound procAfterA.word_history 9 (wordCountOf altB) = 27 ∧
    (26 : ℤ) ≠ 27 := by
  refine ⟨by rfl, by decide, by decide⟩

/-- Amended C3.  The reported wpm for a fragment with positive word count equals
the claimed formula with truncation (`⌊·⌋`, Python `int()`) in place of
rounding: totalWords over the retained ≤ 10-second window, windowSeconds the
elapsed time from the oldest retained entry when above 1 second else a fixed 10,
and the `wordCount * 6` fallback exactly when the truncated result is 0 with a
positive word count. -/
theorem wpm_reported_eq_floor_formula (res : DGResult) (t : ℚ) (s : AudioProcessor)
    (alt : DGAlternative) (halt : res.alternatives.head? = some alt)
    (hne : alt.transcript ≠ "") (hwc : 0 < wordCountOf alt)
    (hch : res.channel_index = 0 → s.input_channels.isSome)
    (hcb : s.hasCallback = true)
    (hsort : s.word_history.Pairwise (fun a b => a.1 ≤ b.1))
    (hle : ∀ p ∈ s.word_history, p.1 ≤ t) :
    ∃ ev s2, onMessage res t s = .ok (some ev, s2) ∧
      ev.coaching.wpm = wpmClaimFloor s.word_history t (wordCountOf alt) := by
  obtain ⟨p, hres⟩ :=
    resolveSpeaker_ok res.channel_index (firstSpeaker alt.words) s.input_channels
      s.user_name hch
  have hshape := onMessage_ok_shape res t s alt p halt hne hres
  rw [hcb] at hshape
  simp only [if_true] at hshape
  refine ⟨_, _, hshape, ?_⟩
  show reportedWpm alt t s = wpmClaimFloor s.word_history t (wordCountOf alt)
  have hpw : (s.word_history ++ [(t, wordCountOf alt)]).Pairwise
      (fun a b => a.1 ≤ b.1) := by
    rw [List.pairwise_append]
    refine ⟨hsort, List.pairwise_singleton _ _, ?_⟩
    intro a ha b hb
    have hbt : b = (t, wordCountOf alt) := by simpa using hb
    rw [hbt]
    exact hle a ha
  have hhist : pruneHistory t (s.word_history ++ [(t, wordCountOf alt)]) =
      (s.word_history ++ [(t, wordCountOf alt)]).filter (fun p => t - p.1 ≤ 10) := by
    unfold pruneHistory
    exact dropWhile_old_eq_filter_young t _ hpw
  unfold reportedWpm wpmStep wpmClaimFloor wpmClaimWith
  rw [if_pos hwc, hhist]

/-- Witness for the amended C3: the same two-fragment run, where the reported
wpm equals the truncated formula. -/
theorem wpm_reported_eq_floor_formula_witness :
    (onMessage resB 9 procAfterA).map (fun r => r.1.map (·.coaching.wpm)) =
      .ok (some (wpmClaimFloor procAfterA.word_history 9 (wordCountOf altB))) := by
  obtain ⟨ev, s2, hok, hw⟩ :=
    wpm_reported_eq_floor_formula resB 9 procAfterA altB rfl (by decide) (by decide)
      (by decide) rfl (by decide) (by decide)
  rw [hok]
  simp only [Except.map, Option.map]
  rw [hw]

/-! ## C4: metrics are not restricted to final fragments -/

/-- An interim (non-final) fragment carrying a filler word. -/
def resInterim : DGResult := ⟨[⟨"um hello", [⟨"um", 0⟩, ⟨"hello", 0⟩]⟩], false, 1⟩

attribute [local semireducible] Rat.add Rat.sub Rat.mul Rat.inv in
/-- Counterexample to C4 as stated.  `on_message` never consults `is_final`
before updating the coaching state: this interim fragment appends `(0, 2)` to
the word history and increments the filler ledger to 1 with `["um"]`, where the
claim requires all three to remain `([], 0, [])`. -/
theorem interim_fragment_updates_metrics_cx :
    (onMessage resInterim 0 procReady).map
        (fun r => (r.2.word_history, r.2.filler_count, r.2.fillers_detected)) =
      .ok ([((0 : ℚ), 2)], 1, ["um"]) ∧
    (procReady.word_history, procReady.filler_count, procReady.fillers_detected) =
      ([], 0, []) := by
  exact ⟨by rfl, rfl⟩

/-- Amended C4.  The coaching metrics are computed from every fragment with
non-empty text regardless of finality: the processor state produced by
`on_message` (word history, filler counter, detected fillers) is the same
function of the fragment whether `is_final` is true or false — finality only
affects the question flag and the `is_final` field of the outgoing event. -/
theorem metrics_state_independent_of_finality (res : DGResult) (b : Bool) (t : ℚ)
    (s : AudioProcessor) :
    (onMessage { res with is_final := b } t s).map (·.2) =
      (onMessage res t s).map (·.2) := by
  cases halt : res.alternatives.head? with
  | none =>
    unfold onMessage
    simp [halt]
  | some alt =>
    by_cases hemp : alt.transcript = ""
    · unfold onMessage
      simp [halt, hemp]
    · cases hres : resolveSpeaker res.channel_index (firstSpeaker alt.words)
          s.input_channels s.user_name with
      | error e =>
        rw [onMessage_error_shape res t s alt e halt hemp hres,
          onMessage_error_shape { res with is_final := b } t s alt e halt hemp hres]
      | ok p =>
        rw [onMessage_ok_shape res t s alt p halt hemp hres,
          onMessage_ok_shape { res with is_final := b } t s alt p halt hemp hres]
        simp [Except.map]

/-! ## Generic fold helpers -/

/-- A fold that fixes its argument at every element is the identity. -/
theorem foldl_eq_self {α β : Type} (f : α → β → α) (s : α) (l : List β)
    (h : ∀ b ∈ l, f s b = s) : l.foldl f s = s := by
  induction l with
  | nil => rfl
  | cons a l ih =>
    rw [List.foldl_cons, h a (List.mem_cons_self a l)]
    exact ih fun b hb => h b (List.mem_cons_of_mem a hb)

/-- Folds preserve invariants preserved by each step. -/
theorem foldl_preserves {α β : Type} (P : α → Prop) (f : α → β → α) (l : List β)
    (s : α) (hstep : ∀ acc b, P acc → P (f acc b)) (hs : P s) : P (l.foldl f s) := by
  induction l generalizing s with
  | nil => exact hs
  | cons a l ih => exact ih (f s a) (hstep s a hs)

/-- Setting the position just past a prefix replaces the singleton suffix. -/
theorem set_append_length {α : Type} (l : List α) (a b : α) :
    (l ++ [a]).set l.length b = l ++ [b] := by
  induction l with
  | nil => rfl
  | cons c l ih => simp [ih]

/-! ## The single-pending-task discipline (claim C1 machinery) -/

/-- All tasks that are still live are the one held by `session["trigger_task"]`:
the key structural invariant behind the debounce discipline. -/
def GInv (s : SessionState) : Prop :=
  ∀ i t, s.tasks[i]? = some t → t.isLive = true → s.triggerTask = some i

/-- At most one pending (neither cancelled nor done) delayed task exists. -/
def atMostOneLive (s : SessionState) : Prop :=
  ∀ (i j : Nat) (ti tj : TriggerTask), s.tasks[i]? = some ti → ti.isLive = true →
    s.tasks[j]? = some tj → tj.isLive = true → i = j

theorem ginv_atMostOneLive {s : SessionState} (h : GInv s) : atMostOneLive s := by
  intro i j ti tj hi hli hj hlj
  have h1 := h i ti hi hli
  have h2 := h j tj hj hlj
  rw [h1] at h2
  exact Option.some_inj.mp h2

theorem GInv_init (m lf : Bool) : GInv (initSession m lf) := by
  intro i t hi
  simp [initSession] at hi

/-- `fireTask` leaves the task list as a `markDone` and keeps the handle. -/
theorem fireTask_tasks (s : SessionState) (i : Nat) :
    (fireTask s i).tasks = markDone s.tasks i ∧
    (fireTask s i).triggerTask = s.triggerTask := by
  unfold fireTask
  by_cases hm : s.mockModeActive = true <;> simp [hm]

/-- The invariant transfers along a `markDone` of the task list. -/
theorem GInv_of_markDone (s s' : SessionState) (i : Nat)
    (ht : s'.tasks = markDone s.tasks i) (htr : s'.triggerTask = s.triggerTask)
    (h : GInv s) : GInv s' := by
  intro j u hj hu
  rw [ht] at hj
  rw [htr]
  unfold markDone at hj
  cases htask : s.tasks[i]? with
  | none =>
    rw [htask] at hj
    exact h j u hj hu
  | some t =>
    rw [htask] at hj
    rw [List.getElem?_set] at hj
    by_cases hij : i = j
    · subst hij
      by_cases hlt : i < s.tasks.length
      · simp only [hlt, if_true, and_self, if_pos rfl] at hj
        rw [← Option.some_inj.mp hj] at hu
        simp [TriggerTask.isLive] at hu
      · simp [hlt] at hj
    · simp only [hij, if_false] at hj
      exact h j u hj hu

/-- `fireTask` preserves the single-pending-task invariant. -/
theorem GInv_fireTask (s : SessionState) (i : Nat) (h : GInv s) :
    GInv (fireTask s i) ∧ (fireTask s i).triggerTask = s.triggerTask :=
  ⟨GInv_of_markDone s (fireTask s i) i (fireTask_tasks s i).1 (fireTask_tasks s i).2 h,
    (fireTask_tasks s i).2⟩

/-- The invariant depends only on the task list and the handle. -/
theorem GInv_transfer (s s' : SessionState) (ht : s'.tasks = s.tasks)
    (htr : s'.triggerTask = s.triggerTask) (h : GInv s) : GInv s' := by
  intro j u hj hu
  rw [ht] at hj
  rw [htr]
  exact h j u hj hu

/-- `advance` preserves the invariant and the handle. -/
theorem GInv_advance (now : ℚ) (s : SessionState) (h : GInv s) :
    GInv (advance now s) ∧ (advance now s).triggerTask = s.triggerTask := by
  unfold advance
  refine foldl_preserves (fun acc => GInv acc ∧ acc.triggerTask = s.triggerTask)
    (advStep now) (List.range s.tasks.length) s ?_ ⟨h, rfl⟩
  intro acc b hacc
  unfold advStep
  by_cases hd : dueLive now acc b = true
  · simp only [hd, if_true]
    exact ⟨(GInv_fireTask acc b hacc.1).1, ((GInv_fireTask acc b hacc.1).2).trans hacc.2⟩
  · simp only [hd, if_false]
    exact hacc

/-- `bufferStep` leaves the scheduling state alone and latches the flag. -/
theorem bufferStep_spec (e : TEvent) (s : SessionState) :
    (bufferStep e s).tasks = s.tasks ∧
    (bufferStep e s).triggerTask = s.triggerTask ∧
    (bufferStep e s).mockModeActive = s.mockModeActive ∧
    (bufferStep e s).llmFails = s.llmFails ∧
    (bufferStep e s).suggestionCalls = s.suggestionCalls ∧
    (bufferStep e s).hasSeenQuestion = (s.hasSeenQuestion || e.isQuestion) ∧
    (bufferStep e s).questionBuffer =
      (if e.isFinal then pushCapped s.questionBuffer e.text else s.questionBuffer) := by
  unfold bufferStep
  by_cases hf : e.isFinal = true <;> by_cases hq : e.isQuestion = true <;>
    simp [hf, hq]

/-- Case equations for `cancelPrevTasks`. -/
theorem cancelPrev_none (tasks : List TriggerTask) :
    cancelPrevTasks none tasks = tasks := rfl

theorem cancelPrev_some_none (i : Nat) (tasks : List TriggerTask)
    (h : tasks[i]? = none) : cancelPrevTasks (some i) tasks = tasks := by
  simp [cancelPrevTasks, h]

theorem cancelPrev_some_done (i : Nat) (tasks : List TriggerTask) (t : TriggerTask)
    (h : tasks[i]? = some t) (hd : t.done = true) :
    cancelPrevTasks (some i) tasks = tasks := by
  simp [cancelPrevTasks, h, hd]

theorem cancelPrev_some_live (i : Nat) (tasks : List TriggerTask) (t : TriggerTask)
    (h : tasks[i]? = some t) (hd : t.done = false) :
    cancelPrevTasks (some i) tasks = tasks.set i { t with cancelled := true } := by
  simp [cancelPrevTasks, h, hd]

/-- `cancelPrevTasks` keeps the length of the task list. -/
theorem cancelPrev_length (tt : Option Nat) (tasks : List TriggerTask) :
    (cancelPrevTasks tt tasks).length = tasks.length := by
  cases tt with
  | none => rw [cancelPrev_none]
  | some i =>
    cases h : tasks[i]? with
    | none => rw [cancelPrev_some_none i tasks h]
    | some t =>
      cases hd : t.done with
      | false => rw [cancelPrev_some_live i tasks t h hd, List.length_set]
      | true => rw [cancelPrev_some_done i tasks t h hd]

/-- Under the invariant, the cancellation step leaves no live task: the handle's
task is cancelled (or already done) and no other task was live. -/
theorem cancelPrev_kills (s : SessionState) (h : GInv s) :
    ∀ (j : Nat) (u : TriggerTask),
      (cancelPrevTasks s.triggerTask s.tasks)[j]? = some u → u.isLive = false := by
  intro j u hj
  cases hl : u.isLive with
  | false => rfl
  | true =>
    exfalso
    cases htr : s.triggerTask with
    | none =>
      rw [htr, cancelPrev_none] at hj
      have := h j u hj hl
      rw [htr] at this
      cases this
    | some i =>
      rw [htr] at hj
      cases htask : s.tasks[i]? with
      | none =>
        rw [cancelPrev_some_none i s.tasks htask] at hj
        have := h j u hj hl
        rw [htr] at this
        have hij : i = j := Option.some_inj.mp this
        rw [hij, hj] at htask
        cases htask
      | some t =>
        cases hdone : t.done with
        | true =>
          rw [cancelPrev_some_done i s.tasks t htask hdone] at hj
          have := h j u hj hl
          rw [htr] at this
          have hij : i = j := Option.some_inj.mp this
          rw [hij, hj] at htask
          have hut : u = t := Option.some_inj.mp htask
          rw [hut, TriggerTask.isLive, hdone] at hl
          simp at hl
        | false =>
          rw [cancelPrev_some_live i s.tasks t htask hdone] at hj
          rw [List.getElem?_set] at hj
          by_cases hij : i = j
          · subst hij
            have hlt : i < s.tasks.length := by
              by_contra hge
              rw [List.getElem?_eq_none (Nat.le_of_not_lt hge)] at htask
              cases htask
            simp only [if_pos rfl, hlt, if_true] at hj
            have hu : u = { t with cancelled := true } := Option.some_inj.mp hj.symm
            rw [hu] at hl
            simp [TriggerTask.isLive] at hl
          · simp only [hij, if_false] at hj
            have := h j u hj hl
            rw [htr] at this
            exact hij (Option.some_inj.mp this)

/-- `scheduleStep` preserves the invariant: it kills every live task and then
creates exactly one new live task, pointed to by the fresh handle. -/
theorem GInv_scheduleStep (t : ℚ) (s : SessionState) (h : GInv s) :
    GInv (scheduleStep t s) := by
  unfold scheduleStep
  by_cases hs : s.hasSeenQuestion = true
  · simp only [hs, if_true]
    intro j u hj hu
    dsimp only at hj ⊢
    rw [List.getElem?_append] at hj
    by_cases hlt : j < (cancelPrevTasks s.triggerTask s.tasks).length
    · rw [if_pos hlt] at hj
      have := cancelPrev_kills s h j u hj
      rw [this] at hu
      cases hu
    · rw [if_neg hlt] at hj
      have hj0 : j - (cancelPrevTasks s.triggerTask s.tasks).length = 0 := by
        cases hn : j - (cancelPrevTasks s.triggerTask s.tasks).length with
        | zero => rfl
        | succ k =>
          rw [hn] at hj
          cases hj
      have hjeq : j = (cancelPrevTasks s.triggerTask s.tasks).length := by omega
      rw [hjeq]
  · simp only [hs, if_false]
    exact h

/-- One event step (due timers, then the callback) preserves the invariant. -/
theorem GInv_stepEvent (s : SessionState) (e : TEvent) (h : GInv s) :
    GInv (stepEvent s e) := by
  unfold stepEvent transcriptCallback
  have hadv := (GInv_advance e.time s h).1
  have hb := bufferStep_spec e (advance e.time s)
  exact GInv_scheduleStep e.time _ (GInv_transfer _ _ hb.1 hb.2.1 hadv)

/-- Any run from any invariant state keeps the invariant. -/
theorem GInv_run (trace : List TEvent) (s : SessionState) (h : GInv s) :
    GInv (run trace s) := by
  unfold run
  exact foldl_preserves GInv stepEvent trace s (fun acc e => GInv_stepEvent acc e) h

/-! ## Characterization of runs whose events all fall inside the silence window -/

/-- State characterization along a trace processed entirely inside the debounce
window (no timer fired yet): the buffer is the cap-10 fold of the final texts,
no suggestion call was made, and the task list is a block of cancelled tasks
followed by the single live task scheduled by the event at time `τ` (when a
question has been seen), else empty. -/
def TriggerInv (m lf : Bool) (finals : List String) (anyQ : Bool) (τ : ℚ)
    (s : SessionState) : Prop :=
  s.mockModeActive = m ∧
  s.llmFails = lf ∧
  s.suggestionCalls = [] ∧
  s.questionBuffer = finals.foldl pushCapped [] ∧
  s.hasSeenQuestion = anyQ ∧
  (if anyQ = true then
    ∃ dead, s.tasks = dead ++ [⟨τ + 3, false, false⟩] ∧
      s.triggerTask = some dead.length ∧
      ∀ u ∈ dead, u.cancelled = true ∧ u.done = false
  else s.tasks = [] ∧ s.triggerTask = none)

theorem TriggerInv_init (m lf : Bool) (τ : ℚ) :
    TriggerInv m lf [] false τ (initSession m lf) := by
  refine ⟨rfl, rfl, rfl, rfl, rfl, ?_⟩
  simp [initSession]

/-- If no task is both live and due, letting time pass does nothing. -/
theorem advance_id (now : ℚ) (s : SessionState)
    (h : ∀ u ∈ s.tasks, u.isLive = true → ¬ (u.deadline ≤ now)) :
    advance now s = s := by
  unfold advance
  apply foldl_eq_self
  intro i hi
  unfold advStep
  have hd : dueLive now s i = false := by
    unfold dueLive
    cases htask : s.tasks[i]? with
    | none => simp
    | some u =>
      have hmem := List.getElem?_mem htask
      cases hlive : u.isLive with
      | false => simp [hlive]
      | true =>
        have hnot := h u hmem hlive
        simp [decide_eq_false hnot]
  rw [hd]
  simp

/-- With one live due task at the end of the list (everything before it dead),
letting time pass runs exactly that task's `delayed_trigger` body. -/
theorem advance_fire_last (now : ℚ) (s : SessionState) (dead : List TriggerTask)
    (d : ℚ) (htasks : s.tasks = dead ++ [⟨d, false, false⟩])
    (hdead : ∀ u ∈ dead, u.isLive = false) (hdue : d ≤ now) :
    advance now s = fireTask s dead.length := by
  unfold advance
  have hlen : s.tasks.length = dead.length + 1 := by
    rw [htasks]
    simp
  rw [hlen, List.range_succ, List.foldl_append]
  have hskip : (List.range dead.length).foldl (advStep now) s = s := by
    apply foldl_eq_self
    intro i hi
    have hilt : i < dead.length := List.mem_range.mp hi
    unfold advStep
    have hgd : s.tasks[i]? = dead[i]? := by
      rw [htasks]
      exact List.getElem?_append_left hilt
    have hd : dueLive now s i = false := by
      unfold dueLive
      cases htask : dead[i]? with
      | none => simp [hgd, htask]
      | some u =>
        have hmem : u ∈ dead := List.getElem?_mem htask
        simp [hgd, htask, hdead u hmem]
    rw [hd]
    simp
  rw [hskip]
  simp only [List.foldl_cons, List.foldl_nil]
  unfold advStep
  have hd : dueLive now s dead.length = true := by
    unfold dueLive
    have hget : s.tasks[dead.length]? = some ⟨d, false, false⟩ := by
      rw [htasks]
      exact List.getElem?_concat_length dead _
    simp [hget, TriggerTask.isLive, hdue]
  rw [hd]
  simp

/-- One event arriving strictly inside the silence window preserves the
characterization: nothing fires, the buffer and latch advance, and the callback
cancels the previous pending task (if any) before scheduling the new one. -/
theorem TriggerInv_step (m lf : Bool) (finals : List String) (anyQ : Bool) (τ : ℚ)
    (s : SessionState) (e : TEvent) (hinv : TriggerInv m lf finals anyQ τ s)
    (h1 : τ < e.time) (h2 : e.time < τ + 3) :
    TriggerInv m lf (finals ++ (if e.isFinal then [e.text] else []))
      (anyQ || e.isQuestion) e.time (stepEvent s e) := by
  obtain ⟨hm, hlf, hsc, hbuf, hseen, htasks⟩ := hinv
  have hadv : advance e.time s = s := by
    apply advance_id
    intro u hu hlive
    cases hq : anyQ with
    | true =>
      rw [hq] at htasks
      simp only [if_true] at htasks
      obtain ⟨dead, hT, htr, hdeadP⟩ := htasks
      rw [hT] at hu
      rcases List.mem_append.mp hu with hin | hin
      · have hc := (hdeadP u hin).1
        rw [TriggerTask.isLive, hc] at hlive
        simp at hlive
      · have hu2 : u = ⟨τ + 3, false, false⟩ := by simpa using hin
        rw [hu2]
        exact fun hle => absurd hle (not_le.mpr h2)
    | false =>
      rw [hq] at htasks
      simp only [Bool.false_eq_true, if_false] at htasks
      rw [htasks.1] at hu
      cases hu
  obtain ⟨hbt, hbtr, hbm, hbl, hbs, hbh, hbb⟩ := bufferStep_spec e s
  unfold stepEvent transcriptCallback
  rw [hadv]
  have hbh' : (bufferStep e s).hasSeenQuestion = (anyQ || e.isQuestion) := by
    rw [hbh, hseen]
  have hbufgoal : (bufferStep e s).questionBuffer =
      (finals ++ (if e.isFinal then [e.text] else [])).foldl pushCapped [] := by
    rw [hbb, List.foldl_append, ← hbuf]
    cases hf : e.isFinal <;> simp
  unfold scheduleStep
  rw [hbh']
  cases hq' : (anyQ || e.isQuestion) with
  | false =>
    simp only [Bool.false_eq_true, if_false]
    have hqa : anyQ = false := by
      cases ha : anyQ
      · rfl
      · rw [ha] at hq'
        simp at hq'
    rw [hqa] at htasks
    simp only [Bool.false_eq_true, if_false] at htasks
    rw [hq'] at hbh'
    refine ⟨by rw [hbm, hm], by rw [hbl, hlf], by rw [hbs, hsc], hbufgoal, hbh', ?_⟩
    simp only [Bool.false_eq_true, if_false]
    exact ⟨by rw [hbt, htasks.1], by rw [hbtr, htasks.2]⟩
  | true =>
    simp only [if_true]
    rw [hq'] at hbh'
    refine ⟨by simp [hbm, hm], by simp [hbl, hlf], by simp [hbs, hsc],
      by simp [hbufgoal], by simp [hbh'], ?_⟩
    simp only [if_true]
    cases hqa : anyQ with
    | false =>
      rw [hqa] at htasks
      simp only [Bool.false_eq_true, if_false] at htasks
      refine ⟨[], ?_, ?_, by intro u hu; cases hu⟩
      · simp only [List.nil_append]
        rw [hbt, hbtr, htasks.1, htasks.2, cancelPrev_none]
        rfl
      · simp only [List.length_nil]
        rw [hbtr, hbt, htasks.2, htasks.1, cancelPrev_none]
        rfl
    | true =>
      rw [hqa] at htasks
      simp only [if_true] at htasks
      obtain ⟨dead, hT, htr, hdeadP⟩ := htasks
      have hcomp : cancelPrevTasks (bufferStep e s).triggerTask (bufferStep e s).tasks =
          dead ++ [⟨τ + 3, true, false⟩] := by
        rw [hbtr, hbt, htr, hT]
        rw [cancelPrev_some_live dead.length _ ⟨τ + 3, false, false⟩
          (List.getElem?_concat_length dead _) rfl]
        exact set_append_length dead _ _
      refine ⟨dead ++ [⟨τ + 3, true, false⟩], ?_, ?_, ?_⟩
      · simp only [hcomp, List.append_assoc]
      · simp only [hcomp]
      · intro u hu
        rcases List.mem_append.mp hu with hin | hin
        · exact hdeadP u hin
        · have : u = ⟨τ + 3, true, false⟩ := by simpa using hin
          rw [this]
          exact ⟨rfl, rfl⟩

theorem finalTexts_cons (e : TEvent) (rest : List TEvent) :
    finalTexts (e :: rest) = (if e.isFinal then [e.text] else []) ++ finalTexts rest := by
  unfold finalTexts
  cases hf : e.isFinal <;> simp [hf]

/-- Running a trace whose events all arrive inside the rolling 3-second silence
window preserves the characterization, accumulating final texts and questions. -/
theorem TriggerInv_run (m lf : Bool) :
    ∀ (trace : List TEvent) (finals : List String) (anyQ : Bool) (τ : ℚ)
      (s : SessionState), TriggerInv m lf finals anyQ τ s →
      wellSpacedB τ trace = true →
      TriggerInv m lf (finals ++ finalTexts trace)
        (anyQ || trace.any (·.isQuestion)) (lastTimeD τ trace) (run trace s) := by
  intro trace
  induction trace with
  | nil =>
    intro finals anyQ τ s hinv hws
    simpa [finalTexts, lastTimeD, run] using hinv
  | cons e rest ih =>
    intro finals anyQ τ s hinv hws
    unfold wellSpacedB at hws
    simp only [Bool.and_eq_true, decide_eq_true_eq] at hws
    obtain ⟨⟨h1, h2⟩, h3⟩ := hws
    have hstep := TriggerInv_step m lf finals anyQ τ s e hinv h1 h2
    have hrest := ih _ _ _ _ hstep h3
    simpa [finalTexts_cons, List.append_assoc, Bool.or_assoc, lastTimeD, run,
      List.any_cons] using hrest

/-- Marking the task just past the dead prefix done. -/
theorem markDone_concat (dead : List TriggerTask) (d : ℚ) (c : Bool) :
    markDone (dead ++ [⟨d, c, false⟩]) dead.length = dead ++ [⟨d, c, true⟩] := by
  unfold markDone
  rw [List.getElem?_concat_length]
  exact set_append_length dead _ _

/-- The suggestion-call log of one `delayed_trigger` body. -/
theorem fireTask_calls (s : SessionState) (i : Nat) :
    (fireTask s i).suggestionCalls =
      (if s.mockModeActive then s.suggestionCalls
       else s.suggestionCalls ++ [String.intercalate " " s.questionBuffer]) := by
  unfold fireTask
  by_cases hm : s.mockModeActive = true <;> simp [hm]

/-- Folding the cap-10 push keeps the last ten elements. -/
theorem pushCapped_foldl :
    ∀ (l acc : List String), acc.length ≤ 10 →
      l.foldl pushCapped acc = (acc ++ l).drop (acc.length + l.length - 10) := by
  intro l
  induction l with
  | nil =>
    intro acc hacc
    simp only [List.foldl_nil, List.append_nil, List.length_nil, Nat.add_zero]
    have h0 : acc.length - 10 = 0 := by omega
    rw [h0, List.drop_zero]
  | cons x l ih =>
    intro acc hacc
    rw [List.foldl_cons]
    by_cases hlen : acc.length = 10
    · have hnonempty : acc ≠ [] := by
        intro h0
        rw [h0] at hlen
        cases hlen
      obtain ⟨a, acc', rfl⟩ := List.exists_cons_of_ne_nil hnonempty
      have hpush : pushCapped (a :: acc') x = acc' ++ [x] := by
        unfold pushCapped
        have hgt : (a :: acc' ++ [x]).length > 10 := by
          simp at hlen ⊢
          omega
        simp only [if_pos hgt]
        simp
      rw [hpush]
      have hlen' : (acc' ++ [x]).length ≤ 10 := by
        simp at hlen ⊢
        omega
      rw [ih (acc' ++ [x]) hlen']
      have h1 : (acc' ++ [x]).length + l.length - 10 = l.length := by
        simp at hlen ⊢
        omega
      have h2 : (a :: acc').length + (x :: l).length - 10 = l.length + 1 := by
        simp at hlen ⊢
        omega
      rw [h1, h2]
      have : a :: acc' ++ x :: l = a :: (acc' ++ [x] ++ l) := by simp
      rw [this, List.drop_succ_cons]
    · have hlt : acc.length < 10 := by omega
      have hpush : pushCapped acc x = acc ++ [x] := by
        unfold pushCapped
        have hng : ¬ ((acc ++ [x]).length > 10) := by
          simp
          omega
        simp only [if_neg hng]
      rw [hpush]
      have hlen' : (acc ++ [x]).length ≤ 10 := by
        simp
        omega
      rw [ih (acc ++ [x]) hlen']
      have h1 : (acc ++ [x]).length + l.length - 10 = acc.length + (x :: l).length - 10 := by
        simp
        omega
      rw [h1]
      simp

/-- Cap-10 folding from an empty buffer keeps exactly the last ten texts. -/
theorem capLast_foldl (l : List String) : l.foldl pushCapped [] = capLast l := by
  have h := pushCapped_foldl l [] (by simp)
  simpa [capLast] using h

/-! ## C1: at most one pending delayed task; at most one fire per window -/

/-- C1.  (a) After any prefix of any event trace, at most one pending delayed
suggestion task exists.  (b) The cancellation step run by the callback leaves no
live task, so the single fresh 3.0-second task it then creates supersedes the
previous one.  (c) If all events arrive within the rolling 3-second silence
window, at most one delayed-trigger body ever fires, no matter how long the
session is then left to run. -/
theorem trigger_debounce_invariant (m lf : Bool) (trace : List TEvent) :
    (∀ pre suf, trace = pre ++ suf → atMostOneLive (run pre (initSession m lf))) ∧
    (∀ pre suf, trace = pre ++ suf →
      ∀ (j : Nat) (u : TriggerTask),
        (cancelPrevTasks (run pre (initSession m lf)).triggerTask
          (run pre (initSession m lf)).tasks)[j]? = some u → u.isLive = false) ∧
    (∀ τ0, wellSpacedB τ0 trace = true →
      ∀ tEnd, fireCount (advance tEnd (run trace (initSession m lf))) ≤ 1) := by
  refine ⟨?_, ?_, ?_⟩
  · intro pre suf hps
    exact ginv_atMostOneLive (GInv_run pre _ (GInv_init m lf))
  · intro pre suf hps
    exact cancelPrev_kills _ (GInv_run pre _ (GInv_init m lf))
  · intro τ0 hws tEnd
    have hinv := TriggerInv_run m lf trace [] false τ0 (initSession m lf)
      (TriggerInv_init m lf τ0) hws
    obtain ⟨hm, hlf2, hsc, hbuf, hseen, htasks⟩ := hinv
    cases hq : trace.any (·.isQuestion) with
    | false =>
      rw [hq] at htasks
      simp only [Bool.or_false, Bool.false_eq_true, if_false] at htasks
      have hadv : advance tEnd (run trace (initSession m lf)) =
          run trace (initSession m lf) := by
        apply advance_id
        intro u hu hlive
        rw [htasks.1] at hu
        cases hu
      rw [hadv]
      unfold fireCount
      rw [htasks.1]
      simp
    | true =>
      rw [hq] at htasks
      simp only [Bool.or_true, if_true] at htasks
      obtain ⟨dead, hT, htr, hdeadP⟩ := htasks
      have hdead' : ∀ u ∈ dead, u.isLive = false := by
        intro u hu
        rw [TriggerTask.isLive, (hdeadP u hu).1]
        rfl
      have hz : dead.countP (·.done) = 0 := by
        rw [List.countP_eq_zero]
        intro u hu
        simp [(hdeadP u hu).2]
      by_cases hdue : lastTimeD τ0 trace + 3 ≤ tEnd
      · rw [advance_fire_last tEnd _ dead _ hT hdead' hdue]
        unfold fireCount
        rw [(fireTask_tasks _ _).1, hT, markDone_concat, List.countP_append, hz]
        simp
      · have hadv : advance tEnd (run trace (initSession m lf)) =
            run trace (initSession m lf) := by
          apply advance_id
          intro u hu hlive
          rw [hT] at hu
          rcases List.mem_append.mp hu with hin | hin
          · rw [hdead' u hin] at hlive
            cases hlive
          · have hu2 : u = ⟨lastTimeD τ0 trace + 3, false, false⟩ := by simpa using hin
            rw [hu2]
            exact hdue
        rw [hadv]
        unfold fireCount
        rw [hT, List.countP_append, hz]
        simp

/-- Events of the canonical two-fragment scenario. -/
def e1ex : TEvent := ⟨"Interviewer (System)", "Tell", false, false, 1⟩

def e2ex : TEvent := ⟨"Interviewer (System)", "Tell me about yourself?", true, true, 2⟩

attribute [local semireducible] Rat.add Rat.sub Rat.mul Rat.inv in
/-- Witness for C1 at the two-event scenario inside one silence window. -/
theorem trigger_debounce_invariant_witness :
    atMostOneLive (run [e1ex, e2ex] (initSession false false)) ∧
    fireCount (advance 10 (run [e1ex, e2ex] (initSession false false))) ≤ 1 :=
  ⟨(trigger_debounce_invariant false false [e1ex, e2ex]).1 [e1ex, e2ex] [] (by simp),
    (trigger_debounce_invariant false false [e1ex, e2ex]).2.2 0 (by decide) 10⟩

/-! ## C2: question followed by ≥3 s of silence fires exactly one suggestion -/

/-- C2.  Starting from a clean session (buffer empty, latch unset — the state
immediately after a clear), run any trace whose events all arrive within the
rolling 3-second window, at least one of which is flagged a question, and then
let at least 3 seconds pass after the last event with no further speech: the
suggestion collaborator is called exactly once, and the question text passed to
it is the space-joined content of the question buffer — the final fragment
texts, capped at 10 entries with the oldest evicted on overflow. -/
theorem question_then_silence_single_suggestion (lf : Bool) (trace : List TEvent)
    (τ0 tEnd : ℚ) (hws : wellSpacedB τ0 trace = true)
    (hq : trace.any (·.isQuestion) = true)
    (hend : lastTimeD τ0 trace + 3 ≤ tEnd) :
    (advance tEnd (run trace (initSession false lf))).suggestionCalls =
      [String.intercalate " " (capLast (finalTexts trace))] := by
  have hinv := TriggerInv_run false lf trace [] false τ0 (initSession false lf)
    (TriggerInv_init false lf τ0) hws
  obtain ⟨hm, hlf2, hsc, hbuf, hseen, htasks⟩ := hinv
  rw [hq] at htasks
  simp only [Bool.or_true, if_true] at htasks
  obtain ⟨dead, hT, htr, hdeadP⟩ := htasks
  have hdead' : ∀ u ∈ dead, u.isLive = false := by
    intro u hu
    rw [TriggerTask.isLive, (hdeadP u hu).1]
    rfl
  rw [advance_fire_last tEnd _ dead _ hT hdead' hend]
  rw [fireTask_calls, hm]
  simp only [Bool.false_eq_true, if_false]
  rw [hsc, hbuf]
  simp only [List.nil_append, List.nil_append]
  rw [capLast_foldl]

attribute [local semireducible] Rat.add Rat.sub Rat.mul Rat.inv in
/-- Witness for C2: the spec's own scenario — interim `"Tell"`, then the final
question, then silence — produces exactly one suggestion call carrying
`"Tell me about yourself?"`. -/
theorem question_then_silence_single_suggestion_witness :
    (advance 6 (run [e1ex, e2ex] (initSession false false))).suggestionCalls =
      ["Tell me about yourself?"] := by
  have h := question_then_silence_single_suggestion false [e1ex, e2ex] 0 6
    (by decide) (by decide) (by decide)
  rw [h]
  decide

/-! ## C5: the delayed trigger always clears the buffer and resets the latch -/

/-- C5.  Whenever a scheduled `delayed_trigger` body runs (fires without having
been cancelled), the question buffer is cleared and `has_seen_question` is reset
— for every session state, hence regardless of whether the suggestion
collaborator call succeeds or fails (`llmFails` is arbitrary in `s`); and when
mock-interview mode is active no suggestion call is made (and nothing is sent),
while the buffer and latch are still reset. -/
theorem delayed_trigger_resets (s : SessionState) (i : Nat) :
    (fireTask s i).questionBuffer = [] ∧
    (fireTask s i).hasSeenQuestion = false ∧
    (s.mockModeActive = true →
      (fireTask s i).suggestionCalls = s.suggestionCalls ∧
      (fireTask s i).sent = s.sent) ∧
    (s.mockModeActive = false →
      (fireTask s i).suggestionCalls =
        s.suggestionCalls ++ [String.intercalate " " s.questionBuffer]) := by
  by_cases hm : s.mockModeActive = true
  · unfold fireTask
    simp [hm]
  · unfold fireTask
    simp [hm]

/-- A mock-mode session with a pending task and buffered question text. -/
def sesEx : SessionState :=
  { initSession true false with
    questionBuffer := ["Tell me about yourself?"]
    hasSeenQuestion := true
    tasks := [⟨3, false, false⟩]
    triggerTask := some 0 }

/-- Witness for C5 at a mock-mode session: reset happens, no call is made. -/
theorem delayed_trigger_resets_witness :
    (fireTask sesEx 0).questionBuffer = [] ∧
    (fireTask sesEx 0).hasSeenQuestion = false ∧
    (fireTask sesEx 0).suggestionCalls = sesEx.suggestionCalls :=
  ⟨(delayed_trigger_resets sesEx 0).1, (delayed_trigger_resets sesEx 0).2.1,
    ((delayed_trigger_resets sesEx 0).2.2.1 rfl).1⟩
